import Mathlib

/-
Verification development for the rusty_hue color-conversion and
gamut-mapping core (src/colors.rs and the color path of src/hue.rs).

Modelling conventions:
* f32 arithmetic is embedded as exact real arithmetic (ℝ); powf with the
  rational exponents 2.3 and 1/2.4 becomes Real.rpow.
* u8 values are ℕ; the Rust `as u8` cast of an f32 is modelled as
  truncation toward zero followed by reduction mod 256 (the wraparound
  the unit test of the crate itself records: 1169.43… casts to 145).
* Division by zero in ℝ follows the Lean junk-value convention (x / 0 = 0);
  the Rust source produces non-finite floats there, and in both semantics
  the functions return a value rather than failing.
-/

open Classical

namespace RustyHue

/-- The RGB struct of colors.rs: three u8 channels. -/
@[ext]
structure RGB where
  r : ℕ
  g : ℕ
  b : ℕ
deriving DecidableEq

/-- The XY struct of colors.rs: chromaticity coordinates plus u8 brightness. -/
@[ext]
structure XY where
  x : ℝ
  y : ℝ
  brightness : ℕ

/-- The GamutPoint struct of colors.rs: a bare chromaticity-plane point. -/
@[ext]
structure GamutPoint where
  x : ℝ
  y : ℝ

/-- The ColorGamut struct of colors.rs: a triangle given by its three vertices. -/
@[ext]
structure ColorGamut where
  red : GamutPoint
  green : GamutPoint
  blue : GamutPoint

/-- Truncation toward zero of a real, the rounding mode of a Rust float-to-int cast. -/
noncomputable def ftrunc (v : ℝ) : ℤ :=
  if 0 ≤ v then ⌊v⌋ else -⌊-v⌋

/-- Model of the Rust `as u8` cast applied to an f32: truncate toward zero,
then wrap mod 256 (the source casts without clamping). -/
noncomputable def asU8 (v : ℝ) : ℕ :=
  ((ftrunc v) % 256).toNat

/-- The per-channel forward gamma correction from the loop in XY::from_rgb
(colors.rs lines 56-64): normalize by 255, then branch on 0.04045.
The source exponent is 2.3. -/
noncomputable def gammaForward (v : ℝ) : ℝ :=
  if v / 255 > 0.04045 then ((v / 255 + 0.055) / 1.055) ^ (2.3 : ℝ)
  else v / 255 / 12.92

/-- The X tristimulus value of XY::from_rgb (colors.rs line 71). -/
noncomputable def Xtri (rgb : RGB) : ℝ :=
  gammaForward rgb.r * 0.664511 + gammaForward rgb.g * 0.154324 +
    gammaForward rgb.b * 0.162028

/-- The Y tristimulus value of XY::from_rgb (colors.rs line 72). -/
noncomputable def Ytri (rgb : RGB) : ℝ :=
  gammaForward rgb.r * 0.283881 + gammaForward rgb.g * 0.668433 +
    gammaForward rgb.b * 0.047685

/-- The Z tristimulus value of XY::from_rgb (colors.rs line 73). -/
noncomputable def Ztri (rgb : RGB) : ℝ :=
  gammaForward rgb.r * 0.000088 + gammaForward rgb.g * 0.072310 +
    gammaForward rgb.b * 0.986039

/-- The denominator x + y + z used for the chromaticity divisions in
XY::from_rgb (colors.rs line 77). -/
noncomputable def XYZsum (rgb : RGB) : ℝ :=
  Xtri rgb + Ytri rgb + Ztri rgb

/-- XY::from_rgb (colors.rs lines 52-78): gamma-correct, transform to XYZ,
divide to chromaticity, and truncate y * 254 to the u8 brightness. -/
noncomputable def XY.from_rgb (rgb : RGB) : XY :=
  { x := Xtri rgb / XYZsum rgb
    y := Ytri rgb / XYZsum rgb
    brightness := asU8 (Ytri rgb * 254) }

/-- The linear red channel computed in RGB::from_xy (colors.rs lines 18-24),
with the locals z, brightness, x, y inlined. The local named y in the
source holds brightness / xy.y * z. -/
noncomputable def rawR (xy : XY) : ℝ :=
  (xy.brightness : ℝ) / xy.y * xy.x * 1.656492 - (xy.brightness : ℝ) * 0.354851 -
    (xy.brightness : ℝ) / xy.y * (1 - xy.x - xy.y) * 0.255038

/-- The linear green channel computed in RGB::from_xy (colors.rs line 25). -/
noncomputable def rawG (xy : XY) : ℝ :=
  -((xy.brightness : ℝ) / xy.y * xy.x) * 0.707196 + (xy.brightness : ℝ) * 1.655397 +
    (xy.brightness : ℝ) / xy.y * (1 - xy.x - xy.y) * 0.036152

/-- The linear blue channel computed in RGB::from_xy (colors.rs line 26). -/
noncomputable def rawB (xy : XY) : ℝ :=
  (xy.brightness : ℝ) / xy.y * xy.x * 0.051713 - (xy.brightness : ℝ) * 0.121364 +
    (xy.brightness : ℝ) / xy.y * (1 - xy.x - xy.y) * 1.011530

/-- The per-channel reverse gamma correction from the loop in RGB::from_xy
(colors.rs lines 31-37). -/
noncomputable def gammaReverse (v : ℝ) : ℝ :=
  if v ≤ 0.0031308 then v * 12.92
  else 1.055 * v ^ ((1 : ℝ) / 2.4) - 0.055

/-- RGB::from_xy (colors.rs lines 17-42): recover linear channels, reverse
gamma, scale by 255 and cast each channel to u8. -/
noncomputable def RGB.from_xy (xy : XY) : RGB :=
  { r := asU8 (gammaReverse (rawR xy) * 255)
    g := asU8 (gammaReverse (rawG xy) * 255)
    b := asU8 (gammaReverse (rawB xy) * 255) }

/-- GamutPoint::sign (colors.rs lines 104-106) as the proposition that the
cross product is negative. -/
def GamutPoint.sign (p p1 p2 : GamutPoint) : Prop :=
  (p.x - p2.x) * (p1.y - p2.y) - (p1.x - p2.x) * (p.y - p2.y) < 0

/-- GamutPoint::closest_point_on_line (colors.rs lines 108-116): the foot of
the perpendicular from p onto the infinite line through p1 and p2. -/
noncomputable def GamutPoint.closest_point_on_line (p p1 p2 : GamutPoint) : GamutPoint :=
  let k := ((p2.y - p1.y) * (p.x - p1.x) - (p2.x - p1.x) * (p.y - p1.y)) /
      ((p2.y - p1.y) ^ 2 + (p2.x - p1.x) ^ 2)
  { x := p.x - k * (p2.y - p1.y)
    y := p.y + k * (p2.x - p1.x) }

/-- GamutPoint::distance_to (colors.rs lines 118-120): Euclidean distance. -/
noncomputable def GamutPoint.distance_to (p q : GamutPoint) : ℝ :=
  Real.sqrt ((p.x - q.x) ^ 2 + (p.y - q.y) ^ 2)

/-- ColorGamut::point_in_gamut (colors.rs lines 130-136): the three edge
sign tests agree. -/
def ColorGamut.point_in_gamut (g : ColorGamut) (p : GamutPoint) : Prop :=
  (p.sign g.red g.green ↔ p.sign g.green g.blue) ∧
    (p.sign g.green g.blue ↔ p.sign g.blue g.red)

/-- ColorGamut::closest_point (colors.rs lines 138-154): project onto each
edge line, pick the projection at minimal distance; the first edge wins
ties, then the second. -/
noncomputable def ColorGamut.closest_point (g : ColorGamut) (p : GamutPoint) : GamutPoint :=
  if p.distance_to (p.closest_point_on_line g.red g.green) ≤
        p.distance_to (p.closest_point_on_line g.green g.blue) ∧
      p.distance_to (p.closest_point_on_line g.red g.green) ≤
        p.distance_to (p.closest_point_on_line g.blue g.red) then
    p.closest_point_on_line g.red g.green
  else if p.distance_to (p.closest_point_on_line g.green g.blue) ≤
      p.distance_to (p.closest_point_on_line g.blue g.red) then
    p.closest_point_on_line g.green g.blue
  else
    p.closest_point_on_line g.blue g.red

/-- XY::adjust_for_gamut (colors.rs lines 84-95): leave the point alone when
it is inside the gamut, otherwise replace x and y with the closest point;
brightness is not touched. -/
noncomputable def XY.adjust_for_gamut (xy : XY) (gamut : ColorGamut) : XY :=
  if gamut.point_in_gamut { x := xy.x, y := xy.y } then xy
  else
    { x := (gamut.closest_point { x := xy.x, y := xy.y }).x
      y := (gamut.closest_point { x := xy.x, y := xy.y }).y
      brightness := xy.brightness }

/-- COLOR_GAMUT_A (colors.rs lines 157-161). -/
noncomputable def COLOR_GAMUT_A : ColorGamut :=
  { red := { x := 0.704, y := 0.296 }
    green := { x := 0.2151, y := 0.7106 }
    blue := { x := 0.138, y := 0.08 } }

/-- COLOR_GAMUT_B (colors.rs lines 163-167). -/
noncomputable def COLOR_GAMUT_B : ColorGamut :=
  { red := { x := 0.675, y := 0.322 }
    green := { x := 0.409, y := 0.518 }
    blue := { x := 0.167, y := 0.04 } }

/-- COLOR_GAMUT_C (colors.rs lines 169-173). -/
noncomputable def COLOR_GAMUT_C : ColorGamut :=
  { red := { x := 0.692, y := 0.308 }
    green := { x := 0.17, y := 0.07 }
    blue := { x := 0.153, y := 0.048 } }

/-- color_gamut_lookup (colors.rs lines 175-200): the static model table. -/
def color_gamut_lookup (model_id : String) : Option Char :=
  if model_id = "LST001" ∨ model_id = "LLC005" ∨ model_id = "LLC006" ∨
      model_id = "LLC007" ∨ model_id = "LLC010" ∨ model_id = "LLC011" ∨
      model_id = "LLC012" ∨ model_id = "LLC013" ∨ model_id = "LLC014" then
    some 'A'
  else if model_id = "LCT001" ∨ model_id = "LCT002" ∨ model_id = "LCT003" ∨
      model_id = "LMM001" then
    some 'B'
  else if model_id = "LCT010" ∨ model_id = "LCT011" ∨ model_id = "LCT014" ∨
      model_id = "LCT015" ∨ model_id = "LCT016" ∨ model_id = "LLC020" ∨
      model_id = "LST002" ∨ model_id = "LCT012" then
    some 'C'
  else
    none

/-- The model identifiers that color_gamut_lookup recognizes. -/
def known_model_ids : List String :=
  ["LST001", "LLC005", "LLC006", "LLC007", "LLC010", "LLC011", "LLC012",
   "LLC013", "LLC014", "LCT001", "LCT002", "LCT003", "LMM001", "LCT010",
   "LCT011", "LCT014", "LCT015", "LCT016", "LLC020", "LST002", "LCT012"]

/-- The pure color computation of Hue::set_color_by_index_and_rgb
(hue.rs lines 113-120): convert RGB to xy, then adjust for the gamut the
model lookup names; an unrecognized model leaves the point untouched. -/
noncomputable def set_color_xy (modelid : String) (rgb : RGB) : XY :=
  match color_gamut_lookup modelid with
  | some 'A' => (XY.from_rgb rgb).adjust_for_gamut COLOR_GAMUT_A
  | some 'B' => (XY.from_rgb rgb).adjust_for_gamut COLOR_GAMUT_B
  | some 'C' => (XY.from_rgb rgb).adjust_for_gamut COLOR_GAMUT_C
  | _ => XY.from_rgb rgb

/-- Triangle of the point_in_triangle unit tests in colors.rs. -/
noncomputable def testTriangle : ColorGamut :=
  { red := { x := 4, y := 1 }
    green := { x := 5, y := 3 }
    blue := { x := 2, y := 1 } }

/-- Right triangle used as a concrete gamut in the adjustment theorems. -/
noncomputable def unitTriangle : ColorGamut :=
  { red := { x := 0, y := 0 }
    green := { x := 1, y := 0 }
    blue := { x := 0, y := 1 } }

/-- Query point used against unitTriangle. -/
noncomputable def queryPoint : GamutPoint :=
  { x := 3, y := -(1 / 10) }

lemma rpow_nat_div_pow (x : ℝ) (hx : 0 ≤ x) (p q : ℕ) (hq : 0 < q) :
    (x ^ ((p : ℝ) / (q : ℝ))) ^ q = x ^ p := by
  have hq' : ((q : ℕ) : ℝ) ≠ 0 := Nat.cast_ne_zero.mpr hq.ne'
  rw [← Real.rpow_natCast (x ^ ((p : ℝ) / (q : ℝ))) q, ← Real.rpow_mul hx,
    div_mul_cancel₀ _ hq', Real.rpow_natCast]

lemma le_rpow_of_pow_le {x c : ℝ} {p q : ℕ} (hx : 0 ≤ x) (hq : 0 < q)
    (h : c ^ q ≤ x ^ p) : c ≤ x ^ ((p : ℝ) / (q : ℝ)) := by
  have ht : 0 ≤ x ^ ((p : ℝ) / (q : ℝ)) := Real.rpow_nonneg hx _
  apply le_of_pow_le_pow_left₀ hq.ne' ht
  rw [rpow_nat_div_pow x hx p q hq]
  exact h

lemma rpow_lt_of_pow_lt {x c : ℝ} {p q : ℕ} (hx : 0 ≤ x) (hc : 0 ≤ c) (hq : 0 < q)
    (h : x ^ p < c ^ q) : x ^ ((p : ℝ) / (q : ℝ)) < c := by
  apply lt_of_pow_lt_pow_left₀ q hc
  rw [rpow_nat_div_pow x hx p q hq]
  exact h

lemma rpow23_ge {x c : ℝ} (hx : 0 ≤ x) (h : c ^ (10 : ℕ) ≤ x ^ (23 : ℕ)) :
    c ≤ x ^ (2.3 : ℝ) := by
  have he : (2.3 : ℝ) = ((23 : ℕ) : ℝ) / ((10 : ℕ) : ℝ) := by norm_num
  rw [he]
  exact le_rpow_of_pow_le hx (by norm_num) h

lemma rpow23_lt {x c : ℝ} (hx : 0 ≤ x) (hc : 0 ≤ c) (h : x ^ (23 : ℕ) < c ^ (10 : ℕ)) :
    x ^ (2.3 : ℝ) < c := by
  have he : (2.3 : ℝ) = ((23 : ℕ) : ℝ) / ((10 : ℕ) : ℝ) := by norm_num
  rw [he]
  exact rpow_lt_of_pow_lt hx hc (by norm_num) h

lemma rpow512_ge {x c : ℝ} (hx : 0 ≤ x) (h : c ^ (12 : ℕ) ≤ x ^ (5 : ℕ)) :
    c ≤ x ^ ((1 : ℝ) / 2.4) := by
  have he : ((1 : ℝ) / 2.4) = ((5 : ℕ) : ℝ) / ((12 : ℕ) : ℝ) := by norm_num
  rw [he]
  exact le_rpow_of_pow_le hx (by norm_num) h

lemma rpow512_lt {x c : ℝ} (hx : 0 ≤ x) (hc : 0 ≤ c) (h : x ^ (5 : ℕ) < c ^ (12 : ℕ)) :
    x ^ ((1 : ℝ) / 2.4) < c := by
  have he : ((1 : ℝ) / 2.4) = ((5 : ℕ) : ℝ) / ((12 : ℕ) : ℝ) := by norm_num
  rw [he]
  exact rpow_lt_of_pow_lt hx hc (by norm_num) h

lemma ftrunc_eq_nat (v : ℝ) (n : ℕ) (h1 : (n : ℝ) ≤ v) (h2 : v < n + 1) :
    ftrunc v = n := by
  have h0 : (0 : ℝ) ≤ v := le_trans (by positivity) h1
  rw [ftrunc, if_pos h0, Int.floor_eq_iff]
  constructor
  · exact_mod_cast h1
  · push_cast
    exact h2

lemma asU8_eq (v : ℝ) (n : ℕ) (h1 : (n : ℝ) ≤ v) (h2 : v < n + 1) :
    asU8 v = n % 256 := by
  rw [asU8, ftrunc_eq_nat v n h1 h2]
  omega

lemma asU8_lt (v : ℝ) : asU8 v < 256 := by
  have h1 : (0 : ℤ) ≤ ftrunc v % 256 := Int.emod_nonneg _ (by norm_num)
  have h2 : ftrunc v % 256 < 256 := Int.emod_lt_of_pos _ (by norm_num)
  rw [asU8]
  omega

lemma gammaForward_nonneg (v : ℕ) : 0 ≤ gammaForward v := by
  rw [gammaForward]
  split_ifs with h
  · exact Real.rpow_nonneg (by positivity) _
  · positivity

lemma gammaForward_pos (v : ℕ) (hv : 0 < v) : 0 < gammaForward v := by
  rw [gammaForward]
  split_ifs with h
  · exact Real.rpow_pos_of_pos (by positivity) _
  · have : (1 : ℝ) ≤ (v : ℝ) := by exact_mod_cast hv
    positivity

lemma gammaForward_zero : gammaForward ((0 : ℕ) : ℝ) = 0 := by
  rw [gammaForward]
  norm_num

/-- The numerator of the projection parameter k in closest_point_on_line,
which is also the cross product testing whether a point lies on the line. -/
def lineCross (q p1 p2 : GamutPoint) : ℝ :=
  (p2.y - p1.y) * (q.x - p1.x) - (p2.x - p1.x) * (q.y - p1.y)

lemma closest_point_on_line_of_cross_zero {q p1 p2 : GamutPoint}
    (h : lineCross q p1 p2 = 0) : q.closest_point_on_line p1 p2 = q := by
  rw [GamutPoint.closest_point_on_line]
  rw [lineCross] at h
  ext <;> simp [h]

lemma denom_ne_zero {p1 p2 : GamutPoint} (h : p1 ≠ p2) :
    (p2.y - p1.y) ^ 2 + (p2.x - p1.x) ^ 2 ≠ 0 := by
  intro hc
  apply h
  have hx : p2.x - p1.x = 0 := by nlinarith [sq_nonneg (p2.y - p1.y), sq_nonneg (p2.x - p1.x)]
  have hy : p2.y - p1.y = 0 := by nlinarith [sq_nonneg (p2.y - p1.y), sq_nonneg (p2.x - p1.x)]
  ext
  · linarith
  · linarith

lemma cross_closest_point_on_line (q : GamutPoint) {p1 p2 : GamutPoint} (h : p1 ≠ p2) :
    lineCross (q.closest_point_on_line p1 p2) p1 p2 = 0 := by
  have hd := denom_ne_zero h
  rw [lineCross, GamutPoint.closest_point_on_line]
  simp only
  field_simp
  ring

lemma distance_to_self (p : GamutPoint) : p.distance_to p = 0 := by
  simp [GamutPoint.distance_to]

lemma distance_to_nonneg (p q : GamutPoint) : 0 ≤ p.distance_to q :=
  Real.sqrt_nonneg _

lemma eq_of_distance_to_eq_zero {p q : GamutPoint} (h : p.distance_to q = 0) : q = p := by
  rw [GamutPoint.distance_to] at h
  have h1 : (p.x - q.x) ^ 2 + (p.y - q.y) ^ 2 ≤ 0 := Real.sqrt_eq_zero'.mp h
  have hx : q.x = p.x := by nlinarith [sq_nonneg (p.x - q.x), sq_nonneg (p.y - q.y)]
  have hy : q.y = p.y := by nlinarith [sq_nonneg (p.x - q.x), sq_nonneg (p.y - q.y)]
  ext
  · exact hx
  · exact hy

lemma closest_point_cases (g : ColorGamut) (p : GamutPoint) :
    g.closest_point p = p.closest_point_on_line g.red g.green ∨
      g.closest_point p = p.closest_point_on_line g.green g.blue ∨
      g.closest_point p = p.closest_point_on_line g.blue g.red := by
  rw [ColorGamut.closest_point]
  split_ifs
  · exact Or.inl rfl
  · exact Or.inr (Or.inl rfl)
  · exact Or.inr (Or.inr rfl)

lemma closest_point_of_proj_self (g : ColorGamut) (q : GamutPoint)
    (h : q.closest_point_on_line g.red g.green = q ∨
      q.closest_point_on_line g.green g.blue = q ∨
      q.closest_point_on_line g.blue g.red = q) :
    g.closest_point q = q := by
  rw [ColorGamut.closest_point]
  rcases h with h1 | h2 | h3
  · rw [h1, if_pos]
    constructor
    · rw [distance_to_self]
      exact distance_to_nonneg _ _
    · rw [distance_to_self]
      exact distance_to_nonneg _ _
  · rw [h2]
    split_ifs with hc1 hc2
    · refine eq_of_distance_to_eq_zero (le_antisymm ?_ (distance_to_nonneg _ _))
      calc q.distance_to (q.closest_point_on_line g.red g.green) ≤ q.distance_to q := hc1.1
        _ = 0 := distance_to_self q
    · rfl
    · exact absurd ((distance_to_self q) ▸ hc2) (by simp [distance_to_nonneg])
  · rw [h3]
    split_ifs with hc1 hc2
    · refine eq_of_distance_to_eq_zero (le_antisymm ?_ (distance_to_nonneg _ _))
      calc q.distance_to (q.closest_point_on_line g.red g.green) ≤ q.distance_to q := hc1.2
        _ = 0 := distance_to_self q
    · refine eq_of_distance_to_eq_zero (le_antisymm ?_ (distance_to_nonneg _ _))
      calc q.distance_to (q.closest_point_on_line g.green g.blue) ≤ q.distance_to q := hc2
        _ = 0 := distance_to_self q
    · rfl

/-- C3: the forward gamma branch of XY::from_rgb uses exponent 2.3, not the
canonical sRGB exponent 2.4 the claim states: at channel value 100 the code
computes the 2.3-power of the corrected base, which is strictly larger than
the 2.4-power (the base lies in (0, 1)). -/
theorem gamma_exponent_is_2_3 :
    gammaForward ((100 : ℕ) : ℝ) = (((100 : ℝ) / 255 + 0.055) / 1.055) ^ (2.3 : ℝ) ∧
      (((100 : ℝ) / 255 + 0.055) / 1.055) ^ (2.4 : ℝ) < gammaForward ((100 : ℕ) : ℝ) := by
  have hb : gammaForward ((100 : ℕ) : ℝ) =
      (((100 : ℝ) / 255 + 0.055) / 1.055) ^ (2.3 : ℝ) := by
    rw [gammaForward, if_pos (by norm_num)]
    norm_num
  refine ⟨hb, ?_⟩
  rw [hb]
  exact Real.rpow_lt_rpow_of_exponent_gt (by norm_num) (by norm_num) (by norm_num)

/-- C8: point_in_gamut holds exactly when the three edge sign tests agree,
and on the unit-test triangle the point (3.5, 1.5) is inside while (1, 3)
is outside. -/
theorem point_in_gamut_spec :
    (∀ (g : ColorGamut) (p : GamutPoint),
      g.point_in_gamut p ↔
        ((p.sign g.red g.green ↔ p.sign g.green g.blue) ∧
          (p.sign g.green g.blue ↔ p.sign g.blue g.red))) ∧
      testTriangle.point_in_gamut { x := 3.5, y := 1.5 } ∧
      ¬ testTriangle.point_in_gamut { x := 1, y := 3 } := by
  refine ⟨fun g p => Iff.rfl, ?_, ?_⟩
  · norm_num [ColorGamut.point_in_gamut, GamutPoint.sign, testTriangle]
  · norm_num [ColorGamut.point_in_gamut, GamutPoint.sign, testTriangle]

/-- C2 (amended): adjust_for_gamut never touches the brightness field. -/
theorem adjust_for_gamut_brightness_eq :
    ∀ (xy : XY) (g : ColorGamut), (xy.adjust_for_gamut g).brightness = xy.brightness := by
  intro xy g
  rw [XY.adjust_for_gamut]
  split_ifs <;> rfl

lemma proj_edge1_eval :
    queryPoint.closest_point_on_line unitTriangle.red unitTriangle.green =
      { x := 3, y := 0 } := by
  ext <;> simp [GamutPoint.closest_point_on_line, queryPoint, unitTriangle]

lemma proj_edge2_eval :
    queryPoint.closest_point_on_line unitTriangle.green unitTriangle.blue =
      { x := 41 / 20, y := -(21 / 20) } := by
  ext <;> simp [GamutPoint.closest_point_on_line, queryPoint, unitTriangle] <;> norm_num

lemma proj_edge3_eval :
    queryPoint.closest_point_on_line unitTriangle.blue unitTriangle.red =
      { x := 0, y := -(1 / 10) } := by
  ext <;> simp [GamutPoint.closest_point_on_line, queryPoint, unitTriangle]

lemma query_not_in_gamut : ¬ unitTriangle.point_in_gamut queryPoint := by
  norm_num [ColorGamut.point_in_gamut, GamutPoint.sign, unitTriangle, queryPoint]

lemma closest_point_query_eval :
    unitTriangle.closest_point queryPoint = { x := 3, y := 0 } := by
  rw [ColorGamut.closest_point, proj_edge1_eval, proj_edge2_eval, proj_edge3_eval, if_pos]
  constructor
  · rw [GamutPoint.distance_to, GamutPoint.distance_to]
    apply Real.sqrt_le_sqrt
    norm_num [queryPoint]
  · rw [GamutPoint.distance_to, GamutPoint.distance_to]
    apply Real.sqrt_le_sqrt
    norm_num [queryPoint]

/-- C2 (counterexample): adjusting the point (3, -0.1) for the right
triangle with vertices (0,0), (1,0), (0,1) yields (3, 0), and that adjusted
point still fails the point_in_gamut test, so gamut adjustment does not
guarantee a point on or inside the triangle. -/
theorem adjust_for_gamut_result_outside :
    XY.adjust_for_gamut { x := 3, y := -(1 / 10), brightness := 10 } unitTriangle =
      { x := 3, y := 0, brightness := 10 } ∧
      ¬ unitTriangle.point_in_gamut { x := 3, y := 0 } := by
  constructor
  · rw [XY.adjust_for_gamut]
    have hni : ¬ unitTriangle.point_in_gamut
        { x := ({ x := 3, y := -(1 / 10), brightness := 10 } : XY).x,
          y := ({ x := 3, y := -(1 / 10), brightness := 10 } : XY).y } :=
      query_not_in_gamut
    have hcp : unitTriangle.closest_point
        { x := ({ x := 3, y := -(1 / 10), brightness := 10 } : XY).x,
          y := ({ x := 3, y := -(1 / 10), brightness := 10 } : XY).y } =
        { x := 3, y := 0 } :=
      closest_point_query_eval
    rw [if_neg hni, hcp]
  · norm_num [ColorGamut.point_in_gamut, GamutPoint.sign, unitTriangle]

/-- C4 (counterexample): at chromaticity y = 0 the conversion RGB::from_xy
still returns an RGB value rather than failing: there is no error path in
the code. In the source the y = 0 division produces non-finite floats but
the function returns; in this embedding the junk-value division gives the
concrete result (0, 0, 0) for brightness 0. -/
theorem from_xy_returns_at_y_zero :
    RGB.from_xy { x := 3 / 10, y := 0, brightness := 0 } = { r := 0, g := 0, b := 0 } := by
  have hr : rawR { x := 3 / 10, y := 0, brightness := 0 } = 0 := by
    rw [rawR]; norm_num
  have hg : rawG { x := 3 / 10, y := 0, brightness := 0 } = 0 := by
    rw [rawG]; norm_num
  have hb : rawB { x := 3 / 10, y := 0, brightness := 0 } = 0 := by
    rw [rawB]; norm_num
  have h0 : gammaReverse 0 = 0 := by
    rw [gammaReverse, if_pos (by norm_num)]
    norm_num
  have ha : asU8 ((0 : ℝ) * 255) = 0 := by
    have := asU8_eq ((0 : ℝ) * 255) 0 (by norm_num) (by norm_num)
    simpa using this
  rw [RGB.from_xy, hr, hg, hb, h0, ha]

/-- C4 (amended): RGB::from_xy is total: for every input, including y = 0,
it returns an RGB whose channels are all bytes below 256; no DomainError
exists in the code. -/
theorem from_xy_total :
    ∀ xy : XY, ∃ r g b : ℕ,
      RGB.from_xy xy = { r := r, g := g, b := b } ∧ r < 256 ∧ g < 256 ∧ b < 256 := by
  intro xy
  exact ⟨_, _, _, rfl, asU8_lt _, asU8_lt _, asU8_lt _⟩

/-- C10: a model identifier outside the static table makes
color_gamut_lookup return none (never an error), and the color-setting path
then performs no gamut adjustment: the chromaticity from RGB conversion is
passed through unchanged. -/
theorem unknown_model_passthrough (m : String) (rgb : RGB)
    (h : m ∉ known_model_ids) :
    color_gamut_lookup m = none ∧ set_color_xy m rgb = XY.from_rgb rgb := by
  have hl : color_gamut_lookup m = none := by
    simp only [known_model_ids, List.mem_cons, List.not_mem_nil, or_false] at h
    push_neg at h
    rw [color_gamut_lookup, if_neg (by tauto), if_neg (by tauto), if_neg (by tauto)]
  refine ⟨hl, ?_⟩
  unfold set_color_xy
  rw [hl]

/-- Witness for C10 at the concrete unknown model "GU10X". -/
theorem unknown_model_passthrough_witness :
    color_gamut_lookup "GU10X" = none ∧
      set_color_xy "GU10X" { r := 1, g := 2, b := 3 } =
        XY.from_rgb { r := 1, g := 2, b := 3 } :=
  unknown_model_passthrough "GU10X" { r := 1, g := 2, b := 3 } (by decide)

/-- C5: the chromaticity denominator X + Y + Z of XY::from_rgb vanishes
exactly for RGB (0,0,0); but the caller path of hue.rs does not
special-case black: it invokes the conversion anyway (here its x
chromaticity evaluates through the zero denominator, which in the source
is a 0/0 float division). -/
theorem xyz_sum_zero_iff_black :
    (∀ rgb : RGB, XYZsum rgb = 0 ↔ rgb.r = 0 ∧ rgb.g = 0 ∧ rgb.b = 0) ∧
      XYZsum { r := 0, g := 0, b := 0 } = 0 ∧
      (XY.from_rgb { r := 0, g := 0, b := 0 }).x = 0 ∧
      set_color_xy "L999XY" { r := 0, g := 0, b := 0 } =
        XY.from_rgb { r := 0, g := 0, b := 0 } := by
  have hzero : ∀ rgb : RGB, rgb.r = 0 → rgb.g = 0 → rgb.b = 0 → XYZsum rgb = 0 := by
    intro rgb h1 h2 h3
    rw [XYZsum, Xtri, Ytri, Ztri, h1, h2, h3, gammaForward_zero]
    ring
  have hmain : ∀ rgb : RGB, XYZsum rgb = 0 ↔ rgb.r = 0 ∧ rgb.g = 0 ∧ rgb.b = 0 := by
    intro rgb
    constructor
    · intro h
      have hr := gammaForward_nonneg rgb.r
      have hg := gammaForward_nonneg rgb.g
      have hb := gammaForward_nonneg rgb.b
      rw [XYZsum, Xtri, Ytri, Ztri] at h
      refine ⟨?_, ?_, ?_⟩ <;> by_contra hne
      · have := gammaForward_pos rgb.r (Nat.pos_of_ne_zero hne)
        linarith
      · have := gammaForward_pos rgb.g (Nat.pos_of_ne_zero hne)
        linarith
      · have := gammaForward_pos rgb.b (Nat.pos_of_ne_zero hne)
        linarith
    · rintro ⟨h1, h2, h3⟩
      exact hzero rgb h1 h2 h3
  have h0 : XYZsum { r := 0, g := 0, b := 0 } = 0 := hzero _ rfl rfl rfl
  refine ⟨hmain, h0, ?_, ?_⟩
  · rw [XY.from_rgb]
    simp [h0]
  · unfold set_color_xy
    rw [show color_gamut_lookup "L999XY" = none from by decide]

lemma adjust_of_in_gamut (q : XY) (g : ColorGamut)
    (h : g.point_in_gamut { x := q.x, y := q.y }) : q.adjust_for_gamut g = q := by
  rw [XY.adjust_for_gamut, if_pos h]

lemma adjust_of_not_in_gamut (q : XY) (g : ColorGamut)
    (h : ¬ g.point_in_gamut { x := q.x, y := q.y }) :
    q.adjust_for_gamut g =
      { x := (g.closest_point { x := q.x, y := q.y }).x
        y := (g.closest_point { x := q.x, y := q.y }).y
        brightness := q.brightness } := by
  rw [XY.adjust_for_gamut, if_neg h]

/-- C7: applying adjust_for_gamut twice equals applying it once, for every
gamut whose vertices are pairwise distinct: the first application returns
either the unchanged point or a perpendicular foot lying on one of the
three edge lines, and a point on an edge line is a fixed point of
closest_point, so the second application changes nothing. -/
theorem adjust_for_gamut_idempotent (xy : XY) (g : ColorGamut)
    (h1 : g.red ≠ g.green) (h2 : g.green ≠ g.blue) (h3 : g.blue ≠ g.red) :
    (xy.adjust_for_gamut g).adjust_for_gamut g = xy.adjust_for_gamut g := by
  by_cases hin : g.point_in_gamut { x := xy.x, y := xy.y }
  · rw [adjust_of_in_gamut xy g hin]
    exact adjust_of_in_gamut xy g hin
  · rw [adjust_of_not_in_gamut xy g hin]
    set np := g.closest_point { x := xy.x, y := xy.y } with hnp
    have hfix : g.closest_point { x := np.x, y := np.y } = np := by
      have heta : ({ x := np.x, y := np.y } : GamutPoint) = np := rfl
      rw [heta]
      apply closest_point_of_proj_self
      rcases closest_point_cases g { x := xy.x, y := xy.y } with hc | hc | hc
      · left
        rw [← hnp] at hc
        rw [hc]
        exact closest_point_on_line_of_cross_zero (cross_closest_point_on_line _ h1)
      · right; left
        rw [← hnp] at hc
        rw [hc]
        exact closest_point_on_line_of_cross_zero (cross_closest_point_on_line _ h2)
      · right; right
        rw [← hnp] at hc
        rw [hc]
        exact closest_point_on_line_of_cross_zero (cross_closest_point_on_line _ h3)
    by_cases hin2 : g.point_in_gamut np
    · exact adjust_of_in_gamut { x := np.x, y := np.y, brightness := xy.brightness } g hin2
    · rw [adjust_of_not_in_gamut { x := np.x, y := np.y, brightness := xy.brightness } g hin2]
      have hfix2 : g.closest_point
          { x := ({ x := np.x, y := np.y, brightness := xy.brightness } : XY).x
            y := ({ x := np.x, y := np.y, brightness := xy.brightness } : XY).y } = np := hfix
      rw [hfix2]

/-- Witness for C7 at the point (2, 2) against the right triangle with
vertices (0,0), (1,0), (0,1). -/
theorem adjust_for_gamut_idempotent_witness :
    (XY.adjust_for_gamut (XY.adjust_for_gamut { x := 2, y := 2, brightness := 7 } unitTriangle)
        unitTriangle) =
      XY.adjust_for_gamut { x := 2, y := 2, brightness := 7 } unitTriangle :=
  adjust_for_gamut_idempotent { x := 2, y := 2, brightness := 7 } unitTriangle
    (by simp [unitTriangle, GamutPoint.ext_iff])
    (by simp [unitTriangle, GamutPoint.ext_iff])
    (by simp [unitTriangle, GamutPoint.ext_iff])

/-- C9: closest_point returns the per-edge line projection at minimal
Euclidean distance from the query point, and resolves distance ties by the
fixed edge priority red-green, then green-blue, then blue-red. -/
theorem closest_point_min_spec (g : ColorGamut) (p : GamutPoint) :
    p.distance_to (g.closest_point p) =
        min (p.distance_to (p.closest_point_on_line g.red g.green))
          (min (p.distance_to (p.closest_point_on_line g.green g.blue))
            (p.distance_to (p.closest_point_on_line g.blue g.red))) ∧
      ((p.distance_to (p.closest_point_on_line g.red g.green) ≤
            p.distance_to (p.closest_point_on_line g.green g.blue) ∧
          p.distance_to (p.closest_point_on_line g.red g.green) ≤
            p.distance_to (p.closest_point_on_line g.blue g.red)) →
        g.closest_point p = p.closest_point_on_line g.red g.green) ∧
      (¬(p.distance_to (p.closest_point_on_line g.red g.green) ≤
            p.distance_to (p.closest_point_on_line g.green g.blue) ∧
          p.distance_to (p.closest_point_on_line g.red g.green) ≤
            p.distance_to (p.closest_point_on_line g.blue g.red)) ∧
          p.distance_to (p.closest_point_on_line g.green g.blue) ≤
            p.distance_to (p.closest_point_on_line g.blue g.red) →
        g.closest_point p = p.closest_point_on_line g.green g.blue) ∧
      (¬(p.distance_to (p.closest_point_on_line g.red g.green) ≤
            p.distance_to (p.closest_point_on_line g.green g.blue) ∧
          p.distance_to (p.closest_point_on_line g.red g.green) ≤
            p.distance_to (p.closest_point_on_line g.blue g.red)) ∧
          ¬(p.distance_to (p.closest_point_on_line g.green g.blue) ≤
            p.distance_to (p.closest_point_on_line g.blue g.red)) →
        g.closest_point p = p.closest_point_on_line g.blue g.red) := by
  rw [ColorGamut.closest_point]
  split_ifs with hA hB
  · refine ⟨(min_eq_left (le_min hA.1 hA.2)).symm, fun _ => rfl, fun h => absurd hA h.1,
      fun h => absurd hA h.1⟩
  · refine ⟨?_, fun h => absurd h hA, fun _ => rfl, fun h => absurd hB h.2⟩
    have h21 : p.distance_to (p.closest_point_on_line g.green g.blue) <
        p.distance_to (p.closest_point_on_line g.red g.green) := by
      by_contra hcc
      push_neg at hcc
      push_neg at hA
      have h31 := hA hcc
      linarith
    rw [min_eq_left hB, min_eq_right (le_of_lt h21)]
  · refine ⟨?_, fun h => absurd h hA, fun h => absurd h.2 hB, fun _ => rfl⟩
    have h32 : p.distance_to (p.closest_point_on_line g.blue g.red) <
        p.distance_to (p.closest_point_on_line g.green g.blue) :=
      lt_of_not_le hB
    have h31 : p.distance_to (p.closest_point_on_line g.blue g.red) ≤
        p.distance_to (p.closest_point_on_line g.red g.green) := by
      by_contra hcc
      push_neg at hcc
      push_neg at hA
      have hd12 : p.distance_to (p.closest_point_on_line g.red g.green) ≤
          p.distance_to (p.closest_point_on_line g.green g.blue) := by linarith
      have := hA hd12
      linarith
    rw [min_eq_right (le_of_lt h32), min_eq_right h31]

/-- Witness for C9: against the right triangle with vertices (0,0), (1,0),
(0,1), the query (3, -0.1) selects the first-edge projection (3, 0). -/
theorem closest_point_min_spec_witness :
    unitTriangle.closest_point queryPoint = { x := 3, y := 0 } := by
  have h := (closest_point_min_spec unitTriangle queryPoint).2.1
  rw [proj_edge1_eval] at h
  refine Eq.trans (h ⟨?_, ?_⟩) rfl
  · rw [proj_edge2_eval, GamutPoint.distance_to, GamutPoint.distance_to]
    apply Real.sqrt_le_sqrt
    norm_num [queryPoint]
  · rw [proj_edge3_eval, GamutPoint.distance_to, GamutPoint.distance_to]
    apply Real.sqrt_le_sqrt
    norm_num [queryPoint]

lemma gammaForward_100_bounds :
    (0.138 : ℝ) ≤ gammaForward ((100 : ℕ) : ℝ) ∧ gammaForward ((100 : ℕ) : ℝ) < 0.139 := by
  have hb : gammaForward ((100 : ℕ) : ℝ) = ((4561 : ℝ) / 10761) ^ (2.3 : ℝ) := by
    rw [gammaForward, if_pos (by norm_num)]
    norm_num
  rw [hb]
  constructor
  · exact rpow23_ge (by norm_num) (by norm_num)
  · exact rpow23_lt (by norm_num) (by norm_num) (by norm_num)

/-- One reverse-gamma channel of RGB::from_xy, evaluated through rational
bounds on the 5/12 power: if the linear value v lies strictly above the
0.0031308 branch point and its 5/12 power lies in [c1, c2), and the scaled
window lands in [n, n+1), the cast channel is n mod 256. -/
lemma channel_eval (v : ℝ) (n : ℕ) (c1 c2 : ℝ)
    (hv : ¬ v ≤ 0.0031308)
    (h1 : c1 ≤ v ^ ((1 : ℝ) / 2.4)) (h2 : v ^ ((1 : ℝ) / 2.4) < c2)
    (hn1 : (n : ℝ) ≤ (1.055 * c1 - 0.055) * 255)
    (hn2 : (1.055 * c2 - 0.055) * 255 ≤ n + 1) :
    asU8 (gammaReverse v * 255) = n % 256 := by
  rw [gammaReverse, if_neg hv]
  apply asU8_eq
  · calc (n : ℝ) ≤ (1.055 * c1 - 0.055) * 255 := hn1
      _ ≤ (1.055 * v ^ ((1 : ℝ) / 2.4) - 0.055) * 255 := by linarith
  · calc (1.055 * v ^ ((1 : ℝ) / 2.4) - 0.055) * 255 < (1.055 * c2 - 0.055) * 255 := by linarith
      _ ≤ n + 1 := hn2

lemma from_rgb_100_eval :
    XY.from_rgb { r := 100, g := 100, b := 100 } =
      { x := 980863 / 3039299, y := 999999 / 3039299, brightness := 35 } := by
  obtain ⟨hg1, hg2⟩ := gammaForward_100_bounds
  have hX : Xtri { r := 100, g := 100, b := 100 } = gammaForward ((100 : ℕ) : ℝ) * 0.980863 := by
    show gammaForward ((100 : ℕ) : ℝ) * 0.664511 + gammaForward ((100 : ℕ) : ℝ) * 0.154324 +
        gammaForward ((100 : ℕ) : ℝ) * 0.162028 = gammaForward ((100 : ℕ) : ℝ) * 0.980863
    ring
  have hY : Ytri { r := 100, g := 100, b := 100 } = gammaForward ((100 : ℕ) : ℝ) * 0.999999 := by
    show gammaForward ((100 : ℕ) : ℝ) * 0.283881 + gammaForward ((100 : ℕ) : ℝ) * 0.668433 +
        gammaForward ((100 : ℕ) : ℝ) * 0.047685 = gammaForward ((100 : ℕ) : ℝ) * 0.999999
    ring
  have hZ : Ztri { r := 100, g := 100, b := 100 } = gammaForward ((100 : ℕ) : ℝ) * 1.058437 := by
    show gammaForward ((100 : ℕ) : ℝ) * 0.000088 + gammaForward ((100 : ℕ) : ℝ) * 0.072310 +
        gammaForward ((100 : ℕ) : ℝ) * 0.986039 = gammaForward ((100 : ℕ) : ℝ) * 1.058437
    ring
  have hS : XYZsum { r := 100, g := 100, b := 100 } =
      gammaForward ((100 : ℕ) : ℝ) * 3.039299 := by
    rw [XYZsum, hX, hY, hZ]
    ring
  have hgne : gammaForward ((100 : ℕ) : ℝ) ≠ 0 :=
    (lt_of_lt_of_le (by norm_num : (0 : ℝ) < 0.138) hg1).ne'
  rw [XY.from_rgb, hX, hY, hS]
  refine XY.ext ?_ ?_ ?_
  · show gammaForward ((100 : ℕ) : ℝ) * 0.980863 / (gammaForward ((100 : ℕ) : ℝ) * 3.039299) = _
    rw [mul_div_mul_left _ _ hgne]
    norm_num
  · show gammaForward ((100 : ℕ) : ℝ) * 0.999999 / (gammaForward ((100 : ℕ) : ℝ) * 3.039299) = _
    rw [mul_div_mul_left _ _ hgne]
    norm_num
  · show asU8 (gammaForward ((100 : ℕ) : ℝ) * 0.999999 * 254) = 35
    have h35 := asU8_eq (gammaForward ((100 : ℕ) : ℝ) * 0.999999 * 254) 35
      (by nlinarith) (by nlinarith)
    rw [h35]

lemma from_xy_gray_eval :
    RGB.from_xy { x := 980863 / 3039299, y := 999999 / 3039299, brightness := 35 } =
      { r := 145, g := 145, b := 145 } := by
  have hr : rawR { x := 980863 / 3039299, y := 999999 / 3039299, brightness := 35 } =
      (999999411841 / 28571400000 : ℝ) := by
    rw [rawR]
    norm_num
  have hg : rawG { x := 980863 / 3039299, y := 999999 / 3039299, brightness := 35 } =
      (999997568879 / 28571400000 : ℝ) := by
    rw [rawG]
    norm_num
  have hb : rawB { x := 980863 / 3039299, y := 999999 / 3039299, brightness := 35 } =
      (76923097561 / 2197800000 : ℝ) := by
    rw [rawB]
    norm_num
  have hcr : asU8 (gammaReverse
      (rawR { x := 980863 / 3039299, y := 999999 / 3039299, brightness := 35 }) * 255) = 145 := by
    rw [hr, channel_eval (999999411841 / 28571400000 : ℝ) 1169 (47321 / 10761) (47361 / 10761)
      (by norm_num)
      (rpow512_ge (by norm_num) (by norm_num))
      (rpow512_lt (by norm_num) (by norm_num) (by norm_num))
      (by norm_num) (by norm_num)]
  have hcg : asU8 (gammaReverse
      (rawG { x := 980863 / 3039299, y := 999999 / 3039299, brightness := 35 }) * 255) = 145 := by
    rw [hg, channel_eval (999997568879 / 28571400000 : ℝ) 1169 (47321 / 10761) (47361 / 10761)
      (by norm_num)
      (rpow512_ge (by norm_num) (by norm_num))
      (rpow512_lt (by norm_num) (by norm_num) (by norm_num))
      (by norm_num) (by norm_num)]
  have hcb : asU8 (gammaReverse
      (rawB { x := 980863 / 3039299, y := 999999 / 3039299, brightness := 35 }) * 255) = 145 := by
    rw [hb, channel_eval (76923097561 / 2197800000 : ℝ) 1169 (47321 / 10761) (47361 / 10761)
      (by norm_num)
      (rpow512_ge (by norm_num) (by norm_num))
      (rpow512_lt (by norm_num) (by norm_num) (by norm_num))
      (by norm_num) (by norm_num)]
  exact RGB.ext hcr hcg hcb

/-- C1 (amended): the round trip maps RGB (100,100,100) to (145,145,145),
the values the unit tests of the crate record; each channel ends 45 above
the original, far outside a two-step tolerance, because the reverse
conversion treats the byte brightness 35 as the luminance scale itself. -/
theorem roundtrip_100 :
    RGB.from_xy (XY.from_rgb { r := 100, g := 100, b := 100 }) =
      { r := 145, g := 145, b := 145 } := by
  rw [from_rgb_100_eval, from_xy_gray_eval]

/-- C1 (counterexample): the red channel of the round trip of (100,100,100)
differs from 100 by more than 2, and is neither 0 nor 255, so the deviation
is not clamping at the range ends. -/
theorem roundtrip_100_not_within_two :
    100 + 2 < (RGB.from_xy (XY.from_rgb { r := 100, g := 100, b := 100 })).r ∧
      (RGB.from_xy (XY.from_rgb { r := 100, g := 100, b := 100 })).r ≠ 0 ∧
      (RGB.from_xy (XY.from_rgb { r := 100, g := 100, b := 100 })).r ≠ 255 := by
  rw [from_rgb_100_eval, from_xy_gray_eval]
  norm_num

/-- C6: the u8 cast in RGB::from_xy wraps instead of clamping: at input
xy = (1/3, 1/3) with brightness 254, the red channel value before the cast
exceeds 255 (it is about 2740.5), yet the returned channel is
2740 mod 256 = 180, not the clamped 255. -/
theorem from_xy_wraps_not_clamps :
    255 < gammaReverse (rawR { x := 1 / 3, y := 1 / 3, brightness := 254 }) * 255 ∧
      (RGB.from_xy { x := 1 / 3, y := 1 / 3, brightness := 254 }).r = 180 ∧
      180 = 2740 % 256 := by
  have hraw : rawR { x := 1 / 3, y := 1 / 3, brightness := 254 } =
      (132918581 / 500000 : ℝ) := by
    rw [rawR]
    norm_num
  have ht1 : (110161 / 10761 : ℝ) ≤ (132918581 / 500000 : ℝ) ^ ((1 : ℝ) / 2.4) :=
    rpow512_ge (by norm_num) (by norm_num)
  refine ⟨?_, ?_, by norm_num⟩
  · rw [hraw, gammaReverse, if_neg (by norm_num)]
    nlinarith
  · show asU8 (gammaReverse (rawR { x := 1 / 3, y := 1 / 3, brightness := 254 }) * 255) = 180
    rw [hraw, channel_eval (132918581 / 500000 : ℝ) 2740 (110161 / 10761) (110201 / 10761)
      (by norm_num) ht1
      (rpow512_lt (by norm_num) (by norm_num) (by norm_num))
      (by norm_num) (by norm_num)]

end RustyHue
